import Mathlib

/-!
# Skywire `snet` network layer: address codec and network facade

A shallow embedding of `pkg/snet/network.go`.

* Go strings are modelled by Lean strings (lists of runes).
* `uint16` ports are natural numbers; the only place where a port is produced
  from text is `fmt.Sscanf`, whose 16-bit range check is modelled explicitly.
* Go `error` values are modelled by the inductive type `Snet.Error`; a `nil`
  error is `none` (or the `.ok` branch of `Except`).
* The transport backends (`dmsg.Client`, `stcp.Client`), raw connections, raw
  listeners and `cipher.PubKey.Set` live outside this package.  They are taken
  as parameters, collected in the record `Snet.Ext`.

The last part embeds `Start` and `Stop` of the `proxyUpdater` of
`pkg/app/appdisc/discovery_updater.go` as steps on the state of the updater
and of the update loops it has started.
-/

/-! ## The parts of the Go standard library used by the package -/

namespace strings

/-- Split a rune list at every occurrence of the separator rune. The result
always has one more element than there are separators. -/
def splitRunes (sep : Char) : List Char → List (List Char)
  | [] => [[]]
  | c :: cs =>
    if c = sep then [] :: splitRunes sep cs
    else
      match splitRunes sep cs with
      | [] => [[c]]
      | f :: fs => (c :: f) :: fs

/-- Go `strings.Split(s, sep)` for a separator made of a single rune. -/
def Split (s : String) (sep : Char) : List String :=
  (splitRunes sep s.data).map String.mk

end strings

namespace strconv

/-- The two error kinds of `strconv.ParseUint`. -/
inductive NumError where
  /-- `strconv.ErrSyntax`: the text is not a number in the given base. -/
  | ErrSyntax
  /-- `strconv.ErrRange`: the number does not fit in 64 bits. -/
  | ErrRange
  deriving DecidableEq, Repr

/-- The constant `maxUint64`. -/
def maxUint64 : Nat := 2 ^ 64 - 1

/-- The value `cutoff = maxUint64/10 + 1` of `ParseUint` for base 10: the
smallest `n` such that `n * 10` overflows 64 bits. -/
def cutoff : Nat := maxUint64 / 10 + 1

/-- The digit loop of `strconv.ParseUint(s, 10, 64)`; `n` is the 64-bit
accumulator and bytes are compared by their numbers. With base 10 an underscore is not accepted, and letters, which
would be digits of value at least 10, are rejected like any other byte. -/
def parseLoop : List Char → Nat → Except NumError Nat
  | [], n => .ok n
  | c :: cs, n =>
    if '0'.toNat ≤ c.toNat ∧ c.toNat ≤ '9'.toNat then
      let d := c.toNat - '0'.toNat
      if n ≥ cutoff then .error .ErrRange
      else
        let n10 := n * 10 % 2 ^ 64
        let n1 := (n10 + d) % 2 ^ 64
        if n1 < n10 ∨ n1 > maxUint64 then .error .ErrRange
        else parseLoop cs n1
    else .error .ErrSyntax

/-- Go `strconv.ParseUint(s, 10, 64)`. -/
def ParseUint (s : List Char) : Except NumError Nat :=
  if s = [] then .error .ErrSyntax else parseLoop s 0

end strconv

namespace fmt

/-- The errors with which a scan of `%d` into a `uint16` can fail. -/
inductive ScanError where
  /-- "unexpected newline": a newline among the leading white space. -/
  | unexpectedNewline
  /-- The input ended before a number started. -/
  | unexpectedEOF
  /-- "expected integer": the first rune of the number is not a digit. -/
  | expectedInteger
  /-- The error of `strconv.ParseUint` on the scanned token. -/
  | parse (e : strconv.NumError)
  /-- "unsigned integer overflow on token": the value needs more than 16 bits. -/
  | overflow (tok : List Char)
  deriving DecidableEq, Repr

/-- The table `space` of `fmt/scan.go`: the ranges of white-space runes. -/
def space : List (Nat × Nat) :=
  [(0x0009, 0x000d), (0x0020, 0x0020), (0x0085, 0x0085), (0x00a0, 0x00a0),
   (0x1680, 0x1680), (0x2000, 0x200a), (0x2028, 0x2029), (0x202f, 0x202f),
   (0x205f, 0x205f), (0x3000, 0x3000)]

/-- The loop of `isSpace` over the (sorted) table of ranges. -/
def inRanges (rx : Nat) : List (Nat × Nat) → Bool
  | [] => false
  | rng :: rest =>
    if rx < rng.1 then false
    else if rx ≤ rng.2 then true
    else inRanges rx rest

/-- Go `fmt.isSpace`. -/
def isSpace (r : Char) : Bool :=
  if r.toNat ≥ 2 ^ 16 then false else inRanges r.toNat space

/-- The digit set `decimalDigits` that `getBase` selects for the verb `%d`. -/
def decimalDigits : List Char := "0123456789".data

/-- Go `(*ss).SkipSpace` in the mode of `Sscanf` (`nlIsSpace = false`): skips
white space, and fails on a newline. A carriage return is skipped whether or
not a newline follows it. Returns the unread input. -/
def SkipSpace : List Char → Except ScanError (List Char)
  | [] => .ok []
  | r :: rest =>
    if r = '\r' ∧ rest.head? = some '\n' then SkipSpace rest
    else if r = '\n' then .error .unexpectedNewline
    else if !isSpace r then .ok (r :: rest)
    else SkipSpace rest

/-- The loop `for s.accept(digits) {}` of `scanNumber`: moves the longest run
of accepted runes from the input to the token. Returns token and unread
input. -/
def acceptRun (digits : List Char) : List Char → List Char × List Char
  | [] => ([], [])
  | r :: rest =>
    if r ∈ digits then
      let (tok, unread) := acceptRun digits rest
      (r :: tok, unread)
    else ([], r :: rest)

/-- Go `(*ss).scanNumber(digits, false)`: the input must not be at its end
and must start with an accepted rune; the token is the longest run of them. -/
def scanNumber (digits : List Char) (input : List Char) :
    Except ScanError (List Char × List Char) :=
  match input with
  | [] => .error .unexpectedEOF
  | r :: _ =>
    if r ∈ digits then .ok (acceptRun digits input)
    else .error .expectedInteger

/-- Go `(*ss).scanUint('d', 16)`: skip white space, read a run of decimal
digits, convert it with `strconv.ParseUint(tok, 10, 64)` and check that the
value fits in 16 bits. Returns the value and the unread input. -/
def scanUint16 (input : List Char) : Except ScanError (Nat × List Char) :=
  match SkipSpace input with
  | .error e => .error e
  | .ok input1 =>
    match input1 with
    | [] => .error .unexpectedEOF
    | _ :: _ =>
      match scanNumber decimalDigits input1 with
      | .error e => .error e
      | .ok (tok, unread) =>
        match strconv.ParseUint tok with
        | .error e => .error (.parse e)
        | .ok i =>
          let x := i % 2 ^ 16
          if x ≠ i then .error (.overflow tok) else .ok (x, unread)

/-- Go `fmt.Sscanf(str, "%d", &port)` with `port` a `uint16`: the result is
the value stored in `port`, or the error. The format has the single verb
`%d`: leading white space is skipped, one unsigned number is scanned, and
whatever follows the number in `str` is left unread without complaint. The
scanner's read limit of `2^30` runes for one operand lies far beyond the
length of an address text and is left out. -/
def Sscanf (str : String) : Except ScanError Nat :=
  match SkipSpace str.data with
  | .error e => .error e
  | .ok input =>
    match scanUint16 input with
    | .error e => .error e
    | .ok (x, _) => .ok x

end fmt

namespace Snet

/-- Go `error` values of the package. `E` is the type of the error values
made outside the package (by the key decoder and by the backends). -/
inductive Error (E : Type) where
  /-- The variable `ErrUnknownNetwork` ("unknown network type"). -/
  | ErrUnknownNetwork
  /-- "network.disassembleAddr: invalid addr ADDR": wrong number of fields. -/
  | invalidAddr (addr : String)
  /-- "network.disassembleAddr: ERR ADDR": the key decoder failed with ERR. -/
  | invalidKey (err : E) (addr : String)
  /-- "network.disassembleAddr: ERR": scanning the port failed with ERR. -/
  | portFormat (err : fmt.ScanError)
  /-- An error value returned by a backend, passed on as it is. -/
  | external (err : E)
  /-- "failed to initiate 'stcp': ERR". -/
  | initStcp (err : E)
  deriving DecidableEq, Repr

/-- Go `disassembleAddr`. The argument `addr` is the text `addr.String()` of
the `net.Addr`, and `pkSet` is `cipher.PubKey.Set`. On failure the Go function
returns the error next to a key and a port that its callers do not read; here
only the error is returned. -/
def disassembleAddr {PK E : Type} (pkSet : String → Except E PK) (addr : String) :
    Except (Error E) (PK × Nat) :=
  match strings.Split addr ':' with
  | [s0, s1] =>
    match pkSet s0 with
    | .error err => .error (.invalidKey err addr)
    | .ok pk =>
      if s1 ≠ "~" then
        match fmt.Sscanf s1 with
        | .error err => .error (.portFormat err)
        | .ok port => .ok (pk, port)
      else .ok (pk, 0)
  | _ => .error (.invalidAddr addr)

/-- Go `Config`. -/
structure Config (PK SK : Type) where
  PubKey : PK
  SecKey : SK
  TpNetworks : List String
  DmsgDiscAddr : String
  DmsgMinSessions : Int
  /-- If empty, don't listen. -/
  STCPLocalAddr : String
  STCPTable : List (PK × String)

/-- Go `Network`. A client pointer is `none` when it is `nil`; otherwise it
holds the current state of the client object it points to (type `D` for the
`dmsg.Client`, type `S` for the `stcp.Client`). -/
structure Network (PK SK D S : Type) where
  conf : Config PK SK
  dmsgC : Option D
  stcpC : Option S

/-- What the package uses from outside: the two network-type constants, the
key decoder, the methods of the two clients and the address texts of raw
connections and listeners. `Ctx` is `context.Context`, `C` is `net.Conn`,
`L` is `net.Listener`. A method of a client takes the state of its receiver
and returns the new state next to its result; a method that the package calls
without a `nil` check takes the pointer, which may be `none`. -/
structure Ext (PK Ctx D S E C L : Type) where
  /-- The constant `dmsg.Type`. -/
  DmsgType : String
  /-- The constant `stcp.Type`. -/
  STcpType : String
  /-- Method `cipher.PubKey.Set`. -/
  pkSet : String → Except E PK
  /-- Method `(*dmsg.Client).Serve`. -/
  dmsgServe : D → D
  /-- Method `(*stcp.Client).Serve`. -/
  stcpServe : S → String → S × Option E
  /-- Method `(*dmsg.Client).Close`. -/
  dmsgClose : Option D → Option D × Option E
  /-- Method `(*stcp.Client).Close`. -/
  stcpClose : Option S → Option S × Option E
  /-- Method `(*dmsg.Client).Dial`, applied to `dmsg.Addr{PK, Port}`. -/
  dmsgDial : Option D → Ctx → PK → Nat → Option D × Except E C
  /-- Method `(*stcp.Client).Dial`. -/
  stcpDial : Option S → Ctx → PK → Nat → Option S × Except E C
  /-- Method `(*dmsg.Client).Listen`. -/
  dmsgListen : Option D → Nat → Option D × Except E L
  /-- Method `(*stcp.Client).Listen`. -/
  stcpListen : Option S → Nat → Option S × Except E L
  /-- The text `conn.LocalAddr().String()`. -/
  connLocalAddr : C → String
  /-- The text `conn.RemoteAddr().String()`. -/
  connRemoteAddr : C → String
  /-- The text `l.Addr().String()`. -/
  lisAddr : L → String

/-- Go `Conn`: a raw connection with the parsed addresses of its two ends. -/
structure Conn (PK C : Type) where
  /-- The embedded `net.Conn`. -/
  netConn : C
  lPK : PK
  rPK : PK
  lPort : Nat
  rPort : Nat
  network : String

/-- Go `Listener`. -/
structure Listener (PK L : Type) where
  /-- The embedded `net.Listener`. -/
  netListener : L
  lPK : PK
  lPort : Nat
  network : String

section
variable {PK SK Ctx D S E C L : Type}

/-- Go `Conn.LocalPK`. -/
def Conn.LocalPK (c : Conn PK C) : PK := c.lPK

/-- Go `Conn.RemotePK`. -/
def Conn.RemotePK (c : Conn PK C) : PK := c.rPK

/-- Go `Conn.LocalPort`. -/
def Conn.LocalPort (c : Conn PK C) : Nat := c.lPort

/-- Go `Conn.RemotePort`. -/
def Conn.RemotePort (c : Conn PK C) : Nat := c.rPort

/-- Go `Conn.Network`. -/
def Conn.Network (c : Conn PK C) : String := c.network

/-- Go `Listener.LocalPK`. -/
def Listener.LocalPK (l : Listener PK L) : PK := l.lPK

/-- Go `Listener.LocalPort`. -/
def Listener.LocalPort (l : Listener PK L) : Nat := l.lPort

/-- Go `Listener.Network`. -/
def Listener.Network (l : Listener PK L) : String := l.network

/-- Go `makeConn`. -/
def makeConn (x : Ext PK Ctx D S E C L) (conn : C) (network : String) :
    Except (Error E) (Conn PK C) :=
  match disassembleAddr x.pkSet (x.connLocalAddr conn) with
  | .error err => .error err
  | .ok (lPK, lPort) =>
    match disassembleAddr x.pkSet (x.connRemoteAddr conn) with
    | .error err => .error err
    | .ok (rPK, rPort) =>
      .ok { netConn := conn, lPK := lPK, rPK := rPK, lPort := lPort, rPort := rPort,
            network := network }

/-- Go `makeListener`. -/
def makeListener (x : Ext PK Ctx D S E C L) (l : L) (network : String) :
    Except (Error E) (Listener PK L) :=
  match disassembleAddr x.pkSet (x.lisAddr l) with
  | .error err => .error err
  | .ok (lPK, lPort) => .ok { netListener := l, lPK := lPK, lPort := lPort, network := network }

/-- Go `Network.Init`. The context is not used. The two pauses around the
start of the mesh client's serve loop have no effect on the state; the loop,
started as a goroutine, is represented by its effect on the client. The line
printed when the local address of the direct client is empty is not part of
the state. -/
def Network.Init (x : Ext PK Ctx D S E C L) (n : Network PK SK D S) (_ctx : Ctx) :
    Network PK SK D S × Option (Error E) :=
  let n1 : Network PK SK D S :=
    match n.dmsgC with
    | some d => { n with dmsgC := some (x.dmsgServe d) }
    | none => n
  match n1.stcpC with
  | some s =>
    if n1.conf.STCPLocalAddr ≠ "" then
      match x.stcpServe s n1.conf.STCPLocalAddr with
      | (s1, some err) => ({ n1 with stcpC := some s1 }, some (.initStcp err))
      | (s1, none) => ({ n1 with stcpC := some s1 }, none)
    else (n1, none)
  | none => (n1, none)

/-- Go `Network.Close`. The two goroutines work on different clients, so the
order in which they run does not show in the result; the function returns
after both have finished. -/
def Network.Close (x : Ext PK Ctx D S E C L) (n : Network PK SK D S) :
    Network PK SK D S × Option (Error E) :=
  let (d1, dmsgErr) := x.dmsgClose n.dmsgC
  let (s1, stcpErr) := x.stcpClose n.stcpC
  let n1 : Network PK SK D S := { n with dmsgC := d1, stcpC := s1 }
  match dmsgErr with
  | some err => (n1, some (.external err))
  | none =>
    match stcpErr with
    | some err => (n1, some (.external err))
    | none => (n1, none)

/-- Go `Network.Dial`. -/
def Network.Dial (x : Ext PK Ctx D S E C L) (n : Network PK SK D S) (ctx : Ctx)
    (network : String) (pk : PK) (port : Nat) :
    Network PK SK D S × Except (Error E) (Conn PK C) :=
  if network = x.DmsgType then
    match x.dmsgDial n.dmsgC ctx pk port with
    | (d1, .error err) => ({ n with dmsgC := d1 }, .error (.external err))
    | (d1, .ok conn) => ({ n with dmsgC := d1 }, makeConn x conn network)
  else if network = x.STcpType then
    match x.stcpDial n.stcpC ctx pk port with
    | (s1, .error err) => ({ n with stcpC := s1 }, .error (.external err))
    | (s1, .ok conn) => ({ n with stcpC := s1 }, makeConn x conn network)
  else (n, .error .ErrUnknownNetwork)

/-- Go `Network.Listen`. -/
def Network.Listen (x : Ext PK Ctx D S E C L) (n : Network PK SK D S)
    (network : String) (port : Nat) :
    Network PK SK D S × Except (Error E) (Listener PK L) :=
  if network = x.DmsgType then
    match x.dmsgListen n.dmsgC port with
    | (d1, .error err) => ({ n with dmsgC := d1 }, .error (.external err))
    | (d1, .ok lis) => ({ n with dmsgC := d1 }, makeListener x lis network)
  else if network = x.STcpType then
    match x.stcpListen n.stcpC port with
    | (s1, .error err) => ({ n with stcpC := s1 }, .error (.external err))
    | (s1, .ok lis) => ({ n with stcpC := s1 }, makeListener x lis network)
  else (n, .error .ErrUnknownNetwork)

/-- Go `Listener.AcceptConn`. The method `Accept` of the raw listener is the
argument `accept`; it works on the state `W` of the backend that made the
listener. -/
def Listener.AcceptConn {W : Type} (x : Ext PK Ctx D S E C L)
    (accept : L → W → W × Except E C) (l : Listener PK L) (w : W) :
    W × Except (Error E) (Conn PK C) :=
  match accept l.netListener w with
  | (w1, .error err) => (w1, .error (.external err))
  | (w1, .ok conn) => (w1, makeConn x conn l.network)

end

/-! ## Reading a port text: the words of the specification -/

/-- A decimal digit, `'0'` to `'9'`. -/
def isDecimalDigit (c : Char) : Bool := 48 ≤ c.toNat && c.toNat ≤ 57

/-- White space other than the newline. -/
def isBlank (c : Char) : Bool := fmt.isSpace c && c != '\n'

/-- The number that a list of decimal digits denotes, most significant digit
first. -/
def decimalValue (ds : List Char) : Nat :=
  ds.foldl (fun n c => n * 10 + (c.toNat - 48)) 0

/-- The run of decimal digits at the start of a text, once its leading
blanks are dropped. -/
def leadingDigits (s : String) : List Char :=
  (s.data.dropWhile isBlank).takeWhile isDecimalDigit

/-- The digit table `"0123456789"` indexed by a digit value. -/
def digitChar (d : Nat) : Char := "0123456789".data.getD d '0'

/-- The digit loop of Go's integer formatting (`%d` of an unsigned number):
digits are produced from the least significant one and put in front of the
buffer. The first argument bounds the number of rounds. -/
def fmtDigits : Nat → Nat → List Char → List Char
  | 0, _, buf => buf
  | fuel + 1, u, buf =>
    if u ≥ 10 then fmtDigits fuel (u / 10) (digitChar (u % 10) :: buf)
    else digitChar u :: buf

/-- The decimal text of a natural number, as `%d` prints it. -/
def formatDecimal (u : Nat) : String := String.mk (fmtDigits (u + 1) u [])

/-- Modelled from the spec: the serialiser of the textual address form
`"<public-key-encoding>:<port-decimal>"`, which is not part of `network.go`.
`pkString` is the text encoding of a public key. -/
def assembleAddr {PK : Type} (pkString : PK → String) (pk : PK) (port : Nat) : String :=
  pkString pk ++ ":" ++ formatDecimal port

/-- The words of the specification on the result of `Close`: the first
non-nil error, the one of the mesh backend before the one of the direct
backend. -/
def firstError {E : Type} (dmsgErr stcpErr : Option E) : Option E :=
  match dmsgErr with
  | some e => some e
  | none => stcpErr

/-! ## Stand-ins for the outside world, used in the examples -/

/-- A stand-in for `cipher.PubKey.Set`, with a key represented by its text: it
accepts the texts of 66 hexadecimal digits. -/
def stubPkSet (s : String) : Except String String :=
  if s.length = 66 ∧ s.data.all (fun c => c.isDigit || ('a' ≤ c && c ≤ 'f')) then .ok s
  else .error "invalid public key"

/-- A key text that `stubPkSet` accepts. -/
def samplePK : String :=
  "02a1b2c3d4e5f60718293a4b5c6d7e8f90a1b2c3d4e5f60718293a4b5c6d7e8f90"

/-- A second key text that `stubPkSet` accepts. -/
def samplePK2 : String :=
  "03ffeeddccbbaa99887766554433221100ffeeddccbbaa99887766554433221100"

/-- A stand-in for a raw connection: the texts of its two addresses. -/
structure RawConn where
  localAddr : String
  remoteAddr : String
  deriving DecidableEq, Repr

/-- A stand-in for a raw listener: the text of its address. -/
structure RawLis where
  addr : String
  deriving DecidableEq, Repr

/-- A stand-in for a backend client. It records the methods invoked on it and
counts the raw connections it has handed out that are still open; the other
fields fix what its methods answer. -/
structure StubClient where
  /-- Names of the methods invoked so far, oldest first. -/
  calls : List String
  /-- Number of raw connections handed out and not closed since. -/
  openConns : Nat
  /-- The raw connection that `Dial` and `Accept` hand out. -/
  conn : RawConn
  /-- The raw listener that `Listen` hands out. -/
  lis : RawLis
  dialErr : Option String
  listenErr : Option String
  closeErr : Option String
  serveErr : Option String
  deriving DecidableEq, Repr

/-- Stub `Serve` of the mesh client. -/
def StubClient.serve (c : StubClient) : StubClient :=
  { c with calls := c.calls ++ ["Serve"] }

/-- Stub `Serve` of the direct client. -/
def StubClient.serveAt (c : StubClient) (_addr : String) : StubClient × Option String :=
  ({ c with calls := c.calls ++ ["Serve"] }, c.serveErr)

/-- Stub `Close` of a client; a `nil` receiver is left alone. -/
def StubClient.close : Option StubClient → Option StubClient × Option String
  | none => (none, none)
  | some c => (some { c with calls := c.calls ++ ["Close"] }, c.closeErr)

/-- Stub `Dial`: fails with the configured error, or opens the configured raw
connection. -/
def StubClient.dial : Option StubClient → Unit → String → Nat →
    Option StubClient × Except String RawConn
  | none, _, _, _ => (none, .error "nil client")
  | some c, _, _, _ =>
    match c.dialErr with
    | some e => (some { c with calls := c.calls ++ ["Dial"] }, .error e)
    | none =>
      (some { c with calls := c.calls ++ ["Dial"], openConns := c.openConns + 1 }, .ok c.conn)

/-- Stub `Listen`. -/
def StubClient.listen : Option StubClient → Nat → Option StubClient × Except String RawLis
  | none, _ => (none, .error "nil client")
  | some c, _ =>
    match c.listenErr with
    | some e => (some { c with calls := c.calls ++ ["Listen"] }, .error e)
    | none => (some { c with calls := c.calls ++ ["Listen"] }, .ok c.lis)

/-- Stub `Accept` of a raw listener: a new raw connection of the backend is
opened. -/
def StubClient.accept (_l : RawLis) (c : StubClient) : StubClient × Except String RawConn :=
  ({ c with calls := c.calls ++ ["Accept"], openConns := c.openConns + 1 }, .ok c.conn)

/-- Stub `Close` of a raw connection: the backend has one open connection
less. -/
def StubClient.closeConn (c : StubClient) : StubClient :=
  { c with openConns := c.openConns - 1 }

/-- The outside world made of two stub clients, with the network types
`"dmsg"` and `"stcp"`. -/
def stubExt : Ext String Unit StubClient StubClient String RawConn RawLis where
  DmsgType := "dmsg"
  STcpType := "stcp"
  pkSet := stubPkSet
  dmsgServe := StubClient.serve
  stcpServe := StubClient.serveAt
  dmsgClose := StubClient.close
  stcpClose := StubClient.close
  dmsgDial := StubClient.dial
  stcpDial := StubClient.dial
  dmsgListen := StubClient.listen
  stcpListen := StubClient.listen
  connLocalAddr := RawConn.localAddr
  connRemoteAddr := RawConn.remoteAddr
  lisAddr := RawLis.addr

/-- A fresh stub client that hands out the given raw connection. -/
def stubClient (conn : RawConn) : StubClient :=
  { calls := [], openConns := 0, conn := conn, lis := { addr := samplePK ++ ":45" },
    dialErr := none, listenErr := none, closeErr := none, serveErr := none }

/-- A raw connection with two well-formed addresses. -/
def goodConn : RawConn :=
  { localAddr := samplePK ++ ":49152", remoteAddr := samplePK2 ++ ":45" }

/-- A raw connection whose remote address has no port field. -/
def badConn : RawConn :=
  { localAddr := samplePK ++ ":49152", remoteAddr := samplePK2 }

/-- A configuration with the given local address of the direct backend. -/
def stubConfig (stcpLocalAddr : String) : Config String String :=
  { PubKey := samplePK, SecKey := "secret", TpNetworks := ["dmsg", "stcp"],
    DmsgDiscAddr := "http://discovery", DmsgMinSessions := 1,
    STCPLocalAddr := stcpLocalAddr, STCPTable := [] }

/-- A network of two fresh stub clients. -/
def stubNetwork (stcpLocalAddr : String) (conn : RawConn) :
    Network String String StubClient StubClient :=
  { conf := stubConfig stcpLocalAddr, dmsgC := some (stubClient conn),
    stcpC := some (stubClient conn) }

end Snet

/-! ## Package `appdisc`: the updater of the proxy-discovery entry -/

namespace Appdisc

/-- Go `proxyUpdater` with the goroutines it has started. `Start` and `Stop`
hold the mutex `mu` from their first to their last step (the deferred
`Unlock` also runs when the call panics), so that calls do not overlap and
each call is one step on this state. The fields `client` and `interval` are
only handed to the update loop. -/
structure proxyUpdater where
  /-- Field `cancel`: `none` is `nil`, and `some c` is the cancel function of
  the context number `c`. -/
  cancel : Option Nat
  /-- Field `wg`, a pointer to a wait group: `none` is `nil`, as in the zero
  value of the struct, and `some k` points to a wait group whose counter is
  `k`. -/
  wg : Option Nat
  /-- The goroutines that are inside `UpdateLoop`, each given by the number of
  its context. -/
  loops : List Nat
  /-- The number of contexts that `context.WithCancel` has made so far; it is
  the number of the next one. -/
  contexts : Nat
  deriving DecidableEq, Repr

/-- How a call ends. -/
inductive Outcome where
  /-- The call returns and leaves the given state. -/
  | returned (u : proxyUpdater)
  /-- The program panics during the call (a method of the wait group on a
  `nil` pointer, or a wait-group counter that would go below zero, shown as
  zero) and the given state is left. -/
  | panicked (u : proxyUpdater)
  /-- The call never returns: `wg.Wait` waits for ever. -/
  | blocked
  deriving DecidableEq, Repr

/-- Go `proxyUpdater.Start`. The cancel function is stored before `wg.Add(1)`
is reached, so it stays stored when that call panics on a `nil` wait group;
the goroutine of the update loop is started after `wg.Add(1)`. -/
def proxyUpdater.Start (u : proxyUpdater) : Outcome :=
  if u.cancel ≠ none then .returned u
  else
    match u.wg with
    | none =>
      .panicked { cancel := some u.contexts, wg := none, loops := u.loops,
                  contexts := u.contexts + 1 }
    | some k =>
      .returned { cancel := some u.contexts, wg := some (k + 1),
                  loops := u.loops ++ [u.contexts], contexts := u.contexts + 1 }

/-- Go `proxyUpdater.Stop`. The argument `loopReturns` stands for the method
`UpdateLoop` of the discovery client, which is outside the package: it tells
whether the loop on a context returns once that context is cancelled; a loop
that returns calls `wg.Done`. The last step, `wg.Wait`, returns when the
counter is zero and otherwise waits for ever. -/
def proxyUpdater.Stop (loopReturns : Nat → Bool) (u : proxyUpdater) : Outcome :=
  match u.cancel with
  | none => .returned u
  | some c =>
    let done := u.loops.filter (fun k => k == c && loopReturns k)
    let loops1 := u.loops.filter (fun k => !(k == c && loopReturns k))
    match u.wg with
    | none => .panicked { cancel := none, wg := none, loops := loops1, contexts := u.contexts }
    | some k =>
      if k < done.length then
        .panicked { cancel := none, wg := some 0, loops := loops1, contexts := u.contexts }
      else if k - done.length = 0 then
        .returned { cancel := none, wg := some 0, loops := loops1, contexts := u.contexts }
      else .blocked

/-- A call of one of the two methods. -/
inductive Call where
  | Start
  | Stop
  deriving DecidableEq, Repr

/-- One call. -/
def call (loopReturns : Nat → Bool) (c : Call) (u : proxyUpdater) : Outcome :=
  match c with
  | .Start => u.Start
  | .Stop => u.Stop loopReturns

/-- A sequence of calls, made one after the other; it ends with the first
call that does not return. -/
def run (loopReturns : Nat → Bool) : List Call → proxyUpdater → Outcome
  | [], u => .returned u
  | c :: cs, u =>
    match call loopReturns c u with
    | .returned u1 => run loopReturns cs u1
    | .panicked u1 => .panicked u1
    | .blocked => .blocked

/-- A new updater whose wait group is allocated: no cancel function, no loop,
the counter at zero. -/
def newUpdater : proxyUpdater := { cancel := none, wg := some 0, loops := [], contexts := 0 }

/-- The zero value of the struct: no cancel function and a `nil` wait group. -/
def zeroUpdater : proxyUpdater := { cancel := none, wg := none, loops := [], contexts := 0 }

/-- The states that sequences of calls reach from a new updater with an
allocated wait group: either stopped, with no loop, or started, with the one
loop of the context whose cancel function is kept, a context made earlier. -/
def Settled (u : proxyUpdater) : Prop :=
  (u.cancel = none ∧ u.loops = [] ∧ u.wg = some 0) ∨
  (∃ c, u.cancel = some c ∧ u.loops = [c] ∧ u.wg = some 1 ∧ c < u.contexts)

end Appdisc

/-! ## Lemmas on the library functions -/

namespace strings

theorem splitRunes_ne_nil (sep : Char) (l : List Char) : splitRunes sep l ≠ [] := by
  induction l with
  | nil => simp [splitRunes]
  | cons c cs ih =>
    unfold splitRunes
    split
    · simp
    · split
      · simp
      · simp

theorem splitRunes_length (sep : Char) (l : List Char) :
    (splitRunes sep l).length = l.count sep + 1 := by
  induction l with
  | nil => simp [splitRunes]
  | cons c cs ih =>
    unfold splitRunes
    by_cases h : c = sep
    · subst h
      simp [ih]
    · rw [if_neg h]
      have hc : List.count sep (c :: cs) = List.count sep cs := by
        rw [List.count_cons]
        simp [h]
      rw [hc, ← ih]
      split
      · rename_i heq
        exact absurd heq (splitRunes_ne_nil sep cs)
      · rename_i f fs heq
        simp [heq]

theorem splitRunes_of_not_mem (sep : Char) (l : List Char) (h : sep ∉ l) :
    splitRunes sep l = [l] := by
  induction l with
  | nil => simp [splitRunes]
  | cons c cs ih =>
    have h1 : c ≠ sep := fun e => h (by simp [e])
    have h2 : sep ∉ cs := fun e => h (by simp [e])
    unfold splitRunes
    rw [if_neg h1, ih h2]

theorem splitRunes_append (sep : Char) (a b : List Char) (h : sep ∉ a) :
    splitRunes sep (a ++ sep :: b) = a :: splitRunes sep b := by
  induction a with
  | nil => simp [splitRunes]
  | cons c cs ih =>
    have h1 : c ≠ sep := fun e => h (by simp [e])
    have h2 : sep ∉ cs := fun e => h (by simp [e])
    rw [List.cons_append, splitRunes, if_neg h1, ih h2]

theorem Split_length (s : String) (sep : Char) :
    (Split s sep).length = s.data.count sep + 1 := by
  simp [Split, splitRunes_length]

theorem Split_two (s0 s1 : String) (h0 : ':' ∉ s0.data) (h1 : ':' ∉ s1.data) :
    Split (s0 ++ ":" ++ s1) ':' = [s0, s1] := by
  have hd : (s0 ++ ":" ++ s1).data = s0.data ++ ':' :: s1.data := by
    simp [String.data_append]
  simp only [Split, hd]
  rw [splitRunes_append _ _ _ h0, splitRunes_of_not_mem _ _ h1]
  rfl

end strings

namespace Snet

theorem mem_decimalDigits_iff (c : Char) :
    c ∈ fmt.decimalDigits ↔ isDecimalDigit c = true := by
  constructor
  · intro h
    simp only [fmt.decimalDigits, List.mem_cons, List.mem_nil_iff, or_false] at h
    rcases h with h | h | h | h | h | h | h | h | h | h <;> subst h <;> decide
  · intro h
    simp only [isDecimalDigit, Bool.and_eq_true, decide_eq_true_eq] at h
    have hc : c = Char.ofNat c.toNat := (Char.ofNat_toNat c).symm
    obtain ⟨h1, h2⟩ := h
    generalize c.toNat = n at *
    subst hc
    interval_cases n <;> decide

theorem isBlank_of_digit (c : Char) (h : isDecimalDigit c = true) : isBlank c = false := by
  simp only [isDecimalDigit, Bool.and_eq_true, decide_eq_true_eq] at h
  have hc : c = Char.ofNat c.toNat := (Char.ofNat_toNat c).symm
  obtain ⟨h1, h2⟩ := h
  generalize c.toNat = n at *
  subst hc
  interval_cases n <;> decide

/-- `SkipSpace` drops the leading blanks and fails exactly when a newline
follows them. -/
theorem SkipSpace_eq (l : List Char) :
    fmt.SkipSpace l =
      if (l.dropWhile isBlank).head? = some '\n' then .error .unexpectedNewline
      else .ok (l.dropWhile isBlank) := by
  induction l with
  | nil => simp [fmt.SkipSpace]
  | cons r rest ih =>
    rw [fmt.SkipSpace, List.dropWhile_cons]
    by_cases hn : r = '\n'
    · subst hn
      have h1 : ¬ ('\n' = '\r' ∧ rest.head? = some '\n') := by
        intro h; exact absurd h.1 (by decide)
      have h2 : isBlank '\n' = false := by decide
      simp [h1, h2]
    · by_cases hs : fmt.isSpace r = true
      · have hb : isBlank r = true := by simp [isBlank, hs, hn]
        simp only [hb, if_true, hn, if_false, hs, Bool.not_true, Bool.false_eq_true]
        rw [ih]
        split <;> rfl
      · have hb : isBlank r = false := by simp [isBlank, hs]
        have hr : r ≠ '\r' := by
          intro e; subst e; exact hs (by decide)
        have h1 : ¬ (r = '\r' ∧ rest.head? = some '\n') := fun h => hr h.1
        have hs' : fmt.isSpace r = false := by simpa using hs
        simp [h1, hn, hs', hb]

theorem dropWhile_isBlank_head (l : List Char) (r : Char) (t : List Char)
    (h : l.dropWhile isBlank = r :: t) : isBlank r = false := by
  induction l with
  | nil => simp at h
  | cons a as ih =>
    rw [List.dropWhile_cons] at h
    by_cases ha : isBlank a = true
    · rw [if_pos ha] at h
      exact ih h
    · rw [if_neg ha] at h
      simp only [List.cons.injEq] at h
      rw [← h.1]
      simpa using ha

theorem acceptRun_eq (l : List Char) :
    fmt.acceptRun fmt.decimalDigits l =
      (l.takeWhile isDecimalDigit, l.dropWhile isDecimalDigit) := by
  induction l with
  | nil => simp [fmt.acceptRun]
  | cons r rest ih =>
    rw [fmt.acceptRun, List.takeWhile_cons, List.dropWhile_cons]
    by_cases h : isDecimalDigit r = true
    · have hm : r ∈ fmt.decimalDigits := (mem_decimalDigits_iff r).2 h
      simp [hm, h, ih]
    · have hm : r ∉ fmt.decimalDigits := fun e => h ((mem_decimalDigits_iff r).1 e)
      simp [hm, h]

theorem foldl_digits_ge (ds : List Char) (n : Nat) :
    n ≤ ds.foldl (fun n c => n * 10 + (c.toNat - 48)) n := by
  induction ds generalizing n with
  | nil => simp
  | cons c cs ih =>
    rw [List.foldl_cons]
    exact le_trans (by omega) (ih _)

/-- On a run of decimal digits the loop of `ParseUint` computes the number
the digits denote, and fails when that number does not fit in 64 bits. -/
theorem parseLoop_digits (ds : List Char) (n : Nat)
    (hd : ∀ c ∈ ds, isDecimalDigit c = true) (hn : n < 2 ^ 64) :
    (ds.foldl (fun n c => n * 10 + (c.toNat - 48)) n < 2 ^ 64 →
        strconv.parseLoop ds n = .ok (ds.foldl (fun n c => n * 10 + (c.toNat - 48)) n)) ∧
    (2 ^ 64 ≤ ds.foldl (fun n c => n * 10 + (c.toNat - 48)) n →
        ∃ e, strconv.parseLoop ds n = .error e) := by
  induction ds generalizing n with
  | nil =>
    constructor
    · intro _; simp [strconv.parseLoop]
    · intro h; simp at h; omega
  | cons c cs ih =>
    have hc : isDecimalDigit c = true := hd c (by simp)
    have hcs : ∀ c ∈ cs, isDecimalDigit c = true := fun a ha => hd a (by simp [ha])
    simp only [isDecimalDigit, Bool.and_eq_true, decide_eq_true_eq] at hc
    have h0 : '0'.toNat = 48 := by decide
    have h9 : '9'.toNat = 57 := by decide
    have hge := foldl_digits_ge cs (n * 10 + (c.toNat - 48))
    rw [List.foldl_cons, strconv.parseLoop]
    simp only [h0, h9, hc, and_self, if_true, strconv.cutoff, strconv.maxUint64]
    by_cases hcut : n ≥ (2 ^ 64 - 1) / 10 + 1
    · simp only [hcut, if_true]
      constructor
      · intro h; omega
      · intro _; exact ⟨_, rfl⟩
    · simp only [hcut, if_false]
      have hn10 : n * 10 % 2 ^ 64 = n * 10 := Nat.mod_eq_of_lt (by omega)
      rw [hn10]
      by_cases hov : n * 10 + (c.toNat - 48) < 2 ^ 64
      · have hn1 : (n * 10 + (c.toNat - 48)) % 2 ^ 64 = n * 10 + (c.toNat - 48) :=
          Nat.mod_eq_of_lt hov
        rw [hn1]
        have hno : ¬ (n * 10 + (c.toNat - 48) < n * 10 ∨
            n * 10 + (c.toNat - 48) > 2 ^ 64 - 1) := by omega
        simp only [hno, if_false]
        exact ih _ hcs hov
      · have hlt : (n * 10 + (c.toNat - 48)) % 2 ^ 64 < n * 10 := by omega
        simp only [hlt, true_or, if_true]
        constructor
        · intro h; omega
        · intro _; exact ⟨_, rfl⟩

theorem ParseUint_digits (ds : List Char) (hne : ds ≠ [])
    (hd : ∀ c ∈ ds, isDecimalDigit c = true) :
    (decimalValue ds < 2 ^ 64 → strconv.ParseUint ds = .ok (decimalValue ds)) ∧
    (2 ^ 64 ≤ decimalValue ds → ∃ e, strconv.ParseUint ds = .error e) := by
  have h := parseLoop_digits ds 0 hd (by norm_num)
  simp only [strconv.ParseUint, hne, if_false, decimalValue]
  exact h

theorem scanUint16_digits (r : Char) (t : List Char) (hb : isBlank r = false)
    (hn : r ≠ '\n') (hr : isDecimalDigit r = true) :
    (decimalValue ((r :: t).takeWhile isDecimalDigit) ≤ 65535 →
      fmt.scanUint16 (r :: t) =
        .ok (decimalValue ((r :: t).takeWhile isDecimalDigit),
             (r :: t).dropWhile isDecimalDigit)) ∧
    (65535 < decimalValue ((r :: t).takeWhile isDecimalDigit) →
      ∃ e, fmt.scanUint16 (r :: t) = .error e) := by
  have hskip : fmt.SkipSpace (r :: t) = .ok (r :: t) := by
    rw [SkipSpace_eq, List.dropWhile_cons]
    simp [hb, hn]
  have hm : r ∈ fmt.decimalDigits := (mem_decimalDigits_iff r).2 hr
  have hne : (r :: t).takeWhile isDecimalDigit ≠ [] := by
    rw [List.takeWhile_cons]; simp [hr]
  have hall : ∀ c ∈ (r :: t).takeWhile isDecimalDigit, isDecimalDigit c = true :=
    fun c hc => List.mem_takeWhile_imp hc
  have hp := ParseUint_digits _ hne hall
  generalize hv : decimalValue ((r :: t).takeWhile isDecimalDigit) = v at hp ⊢
  constructor
  · intro hle
    have h1 := hp.1 (by omega)
    have hmod : v % 65536 = v := Nat.mod_eq_of_lt (by omega)
    have hlt : ¬ 65536 ≤ v := by omega
    simp [fmt.scanUint16, hskip, fmt.scanNumber, hm, acceptRun_eq, h1, hmod, hlt]
  · intro hgt
    by_cases h64 : v < 2 ^ 64
    · have h1 := hp.1 h64
      have hge : 65536 ≤ v := by omega
      refine ⟨.overflow ((r :: t).takeWhile isDecimalDigit), ?_⟩
      simp [fmt.scanUint16, hskip, fmt.scanNumber, hm, acceptRun_eq, h1, hge]
    · obtain ⟨e, he⟩ := hp.2 (by omega)
      refine ⟨.parse e, ?_⟩
      simp [fmt.scanUint16, hskip, fmt.scanNumber, hm, acceptRun_eq, he]

theorem scanUint16_not_digit (r : Char) (t : List Char) (hb : isBlank r = false)
    (hn : r ≠ '\n') (hr : isDecimalDigit r = false) :
    fmt.scanUint16 (r :: t) = .error .expectedInteger := by
  have hskip : fmt.SkipSpace (r :: t) = .ok (r :: t) := by
    rw [SkipSpace_eq, List.dropWhile_cons]
    simp [hb, hn]
  have hm : r ∉ fmt.decimalDigits := fun e => by
    have := (mem_decimalDigits_iff r).1 e
    simp [hr] at this
  simp [fmt.scanUint16, hskip, fmt.scanNumber, hm]

/-- What `Sscanf` does, first half: when the text, after its leading blanks,
starts with a run of digits that denotes a number up to 65535, that number
is the result, whatever follows the digits. -/
theorem Sscanf_ok (s : String) (hne : leadingDigits s ≠ [])
    (hle : decimalValue (leadingDigits s) ≤ 65535) :
    fmt.Sscanf s = .ok (decimalValue (leadingDigits s)) := by
  unfold leadingDigits at hne hle ⊢
  unfold fmt.Sscanf
  rw [SkipSpace_eq]
  cases ht : s.data.dropWhile isBlank with
  | nil => rw [ht] at hne; simp at hne
  | cons r t =>
    rw [ht] at hne hle
    have hb := dropWhile_isBlank_head _ _ _ ht
    have hr : isDecimalDigit r = true := by
      by_contra h
      rw [List.takeWhile_cons] at hne
      simp [h] at hne
    have hn : r ≠ '\n' := by
      intro e; subst e; exact absurd hr (by decide)
    have h1 := (scanUint16_digits r t hb hn hr).1 hle
    simp [hn, h1]

/-- What `Sscanf` does, second half: it fails when the text, after its
leading blanks, does not start with a digit, or starts with a run of digits
that denotes a number above 65535. -/
theorem Sscanf_error (s : String)
    (h : leadingDigits s = [] ∨ 65535 < decimalValue (leadingDigits s)) :
    ∃ e, fmt.Sscanf s = .error e := by
  unfold leadingDigits at h
  unfold fmt.Sscanf
  rw [SkipSpace_eq]
  cases ht : s.data.dropWhile isBlank with
  | nil => exact ⟨.unexpectedEOF, by simp [fmt.scanUint16, fmt.SkipSpace]⟩
  | cons r t =>
    rw [ht] at h
    have hb := dropWhile_isBlank_head _ _ _ ht
    by_cases hn : r = '\n'
    · exact ⟨.unexpectedNewline, by simp [hn]⟩
    · by_cases hr : isDecimalDigit r = true
      · have hgt : 65535 < decimalValue ((r :: t).takeWhile isDecimalDigit) := by
          rcases h with h | h
          · rw [List.takeWhile_cons] at h; simp [hr] at h
          · exact h
        obtain ⟨e, he⟩ := (scanUint16_digits r t hb hn hr).2 hgt
        exact ⟨e, by simp [hn, he]⟩
      · have hr' : isDecimalDigit r = false := by simpa using hr
        exact ⟨.expectedInteger, by simp [hn, scanUint16_not_digit r t hb hn hr']⟩

theorem leadingDigits_of_digits (s : String) (hne : s.data ≠ [])
    (hd : ∀ c ∈ s.data, isDecimalDigit c = true) : leadingDigits s = s.data := by
  unfold leadingDigits
  cases hs : s.data with
  | nil => exact absurd hs hne
  | cons r t =>
    rw [hs] at hd
    have hr : isDecimalDigit r = true := hd r (by simp)
    have hb : isBlank r = false := isBlank_of_digit r hr
    rw [List.dropWhile_cons]
    simp only [hb, Bool.false_eq_true, if_false]
    exact List.takeWhile_eq_self_iff.2 (fun c hc => hd c hc)

theorem colon_not_mem_of_digits (l : List Char)
    (hd : ∀ c ∈ l, isDecimalDigit c = true) : ':' ∉ l := by
  intro h
  exact absurd (hd _ h) (by decide)

theorem ne_tilde_of_digits (s : String)
    (hd : ∀ c ∈ s.data, isDecimalDigit c = true) : s ≠ "~" := by
  intro h
  subst h
  exact absurd (hd '~' (by decide)) (by decide)

theorem digitChar_spec (d : Nat) (h : d < 10) :
    (digitChar d).toNat = 48 + d ∧ isDecimalDigit (digitChar d) = true := by
  interval_cases d <;> decide

theorem fmtDigits_spec (fuel u : Nat) (buf : List Char) (h : u < fuel) :
    ∃ ds, fmtDigits fuel u buf = ds ++ buf ∧ ds ≠ [] ∧
      (∀ c ∈ ds, isDecimalDigit c = true) ∧
      ∀ n, ds.foldl (fun n c => n * 10 + (c.toNat - 48)) n = n * 10 ^ ds.length + u := by
  induction fuel generalizing u buf with
  | zero => omega
  | succ fuel ih =>
    rw [fmtDigits]
    by_cases hu : u ≥ 10
    · rw [if_pos hu]
      obtain ⟨ds, h1, _, h3, h4⟩ := ih (u / 10) (digitChar (u % 10) :: buf) (by omega)
      have hdc := digitChar_spec (u % 10) (Nat.mod_lt _ (by norm_num))
      refine ⟨ds ++ [digitChar (u % 10)], by simp [h1], by simp, ?_, ?_⟩
      · intro c hc
        rcases List.mem_append.1 hc with hc | hc
        · exact h3 c hc
        · simp only [List.mem_singleton] at hc
          rw [hc]; exact hdc.2
      · intro n
        rw [List.foldl_append, h4 n]
        simp only [List.foldl_cons, List.foldl_nil, List.length_append, List.length_singleton,
          hdc.1]
        have hdm := Nat.div_add_mod u 10
        rw [pow_succ]
        have : 48 + u % 10 - 48 = u % 10 := by omega
        rw [this]
        nlinarith [hdm]
    · rw [if_neg hu]
      have hdc := digitChar_spec u (by omega)
      refine ⟨[digitChar u], by simp, by simp, ?_, ?_⟩
      · intro c hc
        simp only [List.mem_singleton] at hc
        rw [hc]; exact hdc.2
      · intro n
        simp only [List.foldl_cons, List.foldl_nil, List.length_singleton, pow_one, hdc.1]
        omega

/-- The decimal text of a number is a non-empty run of digits that denotes
the number. -/
theorem formatDecimal_spec (u : Nat) :
    (formatDecimal u).data ≠ [] ∧
    (∀ c ∈ (formatDecimal u).data, isDecimalDigit c = true) ∧
    decimalValue (formatDecimal u).data = u := by
  obtain ⟨ds, h1, h2, h3, h4⟩ := fmtDigits_spec (u + 1) u [] (by omega)
  have hd : (formatDecimal u).data = ds := by
    simp [formatDecimal, h1]
  rw [hd]
  refine ⟨h2, h3, ?_⟩
  have := h4 0
  simpa [decimalValue] using this

/-- On a text of two colon-free fields whose first one is a valid key,
`disassembleAddr` comes down to reading the second field. -/
theorem disassembleAddr_two {PK E : Type} (pkSet : String → Except E PK) (s0 s1 : String)
    (pk : PK) (h0 : ':' ∉ s0.data) (h1 : ':' ∉ s1.data) (hk : pkSet s0 = .ok pk) :
    disassembleAddr pkSet (s0 ++ ":" ++ s1) =
      if s1 ≠ "~" then
        match fmt.Sscanf s1 with
        | .error err => .error (.portFormat err)
        | .ok port => .ok (pk, port)
      else .ok (pk, 0) := by
  unfold disassembleAddr
  rw [strings.Split_two s0 s1 h0 h1]
  simp only [hk]

end Snet

/-! ## The network facade and the address codec: the properties -/

namespace Snet

section
variable {PK SK Ctx D S E C L : Type}

/-- C1: for a network type that is neither the mesh type nor the direct type,
`Network.Dial` and `Network.Listen` return no connection or listener and the
error `ErrUnknownNetwork`, and the network comes back as it was: no method of
either backend client has been applied to its state. -/
theorem Dial_Listen_unknown_network (x : Ext PK Ctx D S E C L) (n : Network PK SK D S)
    (ctx : Ctx) (network : String) (pk : PK) (port : Nat)
    (h1 : network ≠ x.DmsgType) (h2 : network ≠ x.STcpType) :
    Network.Dial x n ctx network pk port = (n, .error .ErrUnknownNetwork) ∧
    Network.Listen x n network port = (n, .error .ErrUnknownNetwork) := by
  constructor
  · simp [Network.Dial, h1, h2]
  · simp [Network.Listen, h1, h2]

/-- C2: whatever the two backend `Close` calls return, `Network.Close` leaves
each client in the state that one call of its `Close` produces, and returns
the mesh client's error if there is one, else the direct client's error if
there is one, else no error. -/
theorem Close_both_and_precedence (x : Ext PK Ctx D S E C L) (n : Network PK SK D S)
    (d1 : Option D) (s1 : Option S) (dmsgErr stcpErr : Option E)
    (hd : x.dmsgClose n.dmsgC = (d1, dmsgErr)) (hs : x.stcpClose n.stcpC = (s1, stcpErr)) :
    Network.Close x n =
      ({ n with dmsgC := d1, stcpC := s1 },
        (firstError dmsgErr stcpErr).map Error.external) := by
  unfold Network.Close
  rw [hd, hs]
  cases dmsgErr <;> cases stcpErr <;> rfl

/-- C3: an address text in which the number of colons is not one, so that it
does not split into exactly two fields, is rejected by `disassembleAddr` with
the address-format error, whatever the key decoder and the fields are. -/
theorem disassembleAddr_field_count (pkSet : String → Except E PK) (addr : String)
    (h : addr.data.count ':' ≠ 1) :
    disassembleAddr pkSet addr = .error (.invalidAddr addr) := by
  have hlen := strings.Split_length addr ':'
  unfold disassembleAddr
  rcases hsp : strings.Split addr ':' with _ | ⟨a, _ | ⟨b, _ | ⟨c, l⟩⟩⟩
  · rfl
  · rfl
  · rw [hsp] at hlen
    simp only [List.length_cons, List.length_nil] at hlen
    omega
  · rfl

end

/-- C1, on two stub clients: dialing and listening on the network type
`"tcp"`. -/
theorem Dial_Listen_unknown_network_witness :
    Network.Dial stubExt (stubNetwork "" goodConn) () "tcp" samplePK2 45 =
      (stubNetwork "" goodConn, .error .ErrUnknownNetwork) ∧
    Network.Listen stubExt (stubNetwork "" goodConn) "tcp" 45 =
      (stubNetwork "" goodConn, .error .ErrUnknownNetwork) :=
  Dial_Listen_unknown_network stubExt (stubNetwork "" goodConn) () "tcp" samplePK2 45
    (by decide) (by decide)

/-- C2, on two stub clients whose `Close` both fail: both have recorded one
`Close`, and the error of the mesh client is returned. -/
theorem Close_both_and_precedence_witness :
    Network.Close stubExt
        { conf := stubConfig "",
          dmsgC := some { stubClient goodConn with closeErr := some "dmsg failed" },
          stcpC := some { stubClient goodConn with closeErr := some "stcp failed" } } =
      ({ conf := stubConfig "",
         dmsgC := some { stubClient goodConn with
                          closeErr := some "dmsg failed", calls := ["Close"] },
         stcpC := some { stubClient goodConn with
                          closeErr := some "stcp failed", calls := ["Close"] } },
        some (.external "dmsg failed")) :=
  Close_both_and_precedence stubExt _ _ _ (some "dmsg failed") (some "stcp failed") rfl rfl

/-- C3, on a text without a colon. -/
theorem disassembleAddr_field_count_witness :
    disassembleAddr stubPkSet samplePK = .error (.invalidAddr samplePK) :=
  disassembleAddr_field_count stubPkSet samplePK (by decide)

section
variable {PK E : Type}

/-- C4, as the code has it: for an address text of two fields whose first
field is a valid key and whose second field is not the sentinel `"~"`,
`disassembleAddr` fails with a port-format error exactly when the second
field, after its leading blanks, does not start with a decimal digit or
starts with a run of digits that denotes a number above 65535; and in the
other case, a run of digits that denotes a number up to 65535, it returns the
key with that number as the port, whatever text follows the digits. -/
theorem disassembleAddr_port_field (pkSet : String → Except E PK) (s0 s1 : String)
    (pk : PK) (h0 : ':' ∉ s0.data) (h1 : ':' ∉ s1.data) (hk : pkSet s0 = .ok pk)
    (hs : s1 ≠ "~") :
    ((∃ e, disassembleAddr pkSet (s0 ++ ":" ++ s1) = .error (.portFormat e)) ↔
      (leadingDigits s1 = [] ∨ 65535 < decimalValue (leadingDigits s1))) ∧
    (leadingDigits s1 ≠ [] → decimalValue (leadingDigits s1) ≤ 65535 →
      disassembleAddr pkSet (s0 ++ ":" ++ s1) =
        .ok (pk, decimalValue (leadingDigits s1))) := by
  rw [disassembleAddr_two pkSet s0 s1 pk h0 h1 hk, if_pos hs]
  refine ⟨⟨?_, ?_⟩, ?_⟩
  · rintro ⟨e, he⟩
    by_contra hc
    have hne : leadingDigits s1 ≠ [] := fun h => hc (Or.inl h)
    have hle : decimalValue (leadingDigits s1) ≤ 65535 := by
      by_contra h; exact hc (Or.inr (by omega))
    rw [Sscanf_ok s1 hne hle] at he
    simp at he
  · intro h
    obtain ⟨e, he⟩ := Sscanf_error s1 h
    exact ⟨e, by rw [he]⟩
  · intro hne hle
    rw [Sscanf_ok s1 hne hle]

/-- C5: for an address text of two fields whose first field is a valid key
and whose second field is a non-empty run of decimal digits denoting `n`,
`disassembleAddr` returns the key with the port `n` when `n ≤ 65535`, and
fails with a port-format error when `n > 65535`. -/
theorem disassembleAddr_decimal_port (pkSet : String → Except E PK) (s0 s1 : String)
    (pk : PK) (h0 : ':' ∉ s0.data) (hk : pkSet s0 = .ok pk) (hne : s1.data ≠ [])
    (hd : ∀ c ∈ s1.data, isDecimalDigit c = true) :
    (decimalValue s1.data ≤ 65535 →
      disassembleAddr pkSet (s0 ++ ":" ++ s1) = .ok (pk, decimalValue s1.data)) ∧
    (65535 < decimalValue s1.data →
      ∃ e, disassembleAddr pkSet (s0 ++ ":" ++ s1) = .error (.portFormat e)) := by
  have h1 : ':' ∉ s1.data := colon_not_mem_of_digits _ hd
  have hs : s1 ≠ "~" := ne_tilde_of_digits _ hd
  have hl : leadingDigits s1 = s1.data := leadingDigits_of_digits s1 hne hd
  rw [disassembleAddr_two pkSet s0 s1 pk h0 h1 hk, if_pos hs]
  constructor
  · intro hle
    rw [Sscanf_ok s1 (by rw [hl]; exact hne) (by rw [hl]; exact hle), hl]
  · intro hgt
    obtain ⟨e, he⟩ := Sscanf_error s1 (Or.inr (by rw [hl]; exact hgt))
    exact ⟨e, by rw [he]⟩

/-- C6: for an address text of two fields whose first field decodes to the
key `pk` and whose second field is the sentinel `"~"`, `disassembleAddr`
returns `pk` with the port 0 and no error. -/
theorem disassembleAddr_sentinel (pkSet : String → Except E PK) (s0 : String) (pk : PK)
    (h0 : ':' ∉ s0.data) (hk : pkSet s0 = .ok pk) :
    disassembleAddr pkSet (s0 ++ ":" ++ "~") = .ok (pk, 0) := by
  rw [disassembleAddr_two pkSet s0 "~" pk h0 (by decide) hk]
  simp

/-- C7: for a key `pk` whose text encoding has no colon and decodes back to
`pk`, and a port `p` below `2^16`, `disassembleAddr` on the text
`"<pk encoding>:<p in decimal>"` returns exactly `(pk, p)`, and serialising
the returned pair gives the text back. -/
theorem disassembleAddr_round_trip (pkSet : String → Except E PK) (pkString : PK → String)
    (pk : PK) (p : Nat) (hp : p < 2 ^ 16) (h0 : ':' ∉ (pkString pk).data)
    (hk : pkSet (pkString pk) = .ok pk) :
    disassembleAddr pkSet (assembleAddr pkString pk p) = .ok (pk, p) ∧
    (disassembleAddr pkSet (assembleAddr pkString pk p)).map
        (fun r => assembleAddr pkString r.1 r.2) = .ok (assembleAddr pkString pk p) := by
  obtain ⟨hne, hd, hv⟩ := formatDecimal_spec p
  have h1 : ':' ∉ (formatDecimal p).data := colon_not_mem_of_digits _ hd
  have hs : formatDecimal p ≠ "~" := ne_tilde_of_digits _ hd
  have hl : leadingDigits (formatDecimal p) = (formatDecimal p).data :=
    leadingDigits_of_digits _ hne hd
  have hsc : fmt.Sscanf (formatDecimal p) = .ok p := by
    have h := Sscanf_ok (formatDecimal p) (by rw [hl]; exact hne) (by rw [hl, hv]; omega)
    rw [hl, hv] at h
    exact h
  have ha : assembleAddr pkString pk p = pkString pk ++ ":" ++ formatDecimal p := rfl
  rw [ha, disassembleAddr_two pkSet (pkString pk) (formatDecimal p) pk h0 h1 hk, if_pos hs, hsc]
  exact ⟨rfl, rfl⟩

end

/-- C4 as stated fails: the second field `"12abc"` is neither the sentinel
nor a decimal integer, and the address is accepted with the port 12. -/
theorem disassembleAddr_trailing_text_counterexample :
    (samplePK ++ ":" ++ "12abc").data.count ':' = 1 ∧
    stubPkSet samplePK = .ok samplePK ∧
    "12abc" ≠ "~" ∧
    ¬ (∀ c ∈ "12abc".data, isDecimalDigit c = true) ∧
    disassembleAddr stubPkSet (samplePK ++ ":" ++ "12abc") = .ok (samplePK, 12) :=
  ⟨by decide, rfl, by decide, by decide, rfl⟩

/-- C4, on the second field `"port"`, which does not start with a digit and
is refused, and on the second field `"12abc"`, which is accepted with the
port 12. -/
theorem disassembleAddr_port_field_witness :
    (∃ e, disassembleAddr stubPkSet (samplePK ++ ":" ++ "port") = .error (.portFormat e)) ∧
    disassembleAddr stubPkSet (samplePK ++ ":" ++ "12abc") = .ok (samplePK, 12) :=
  ⟨(disassembleAddr_port_field stubPkSet samplePK "port" samplePK
      (by decide) (by decide) rfl (by decide)).1.2 (Or.inl (by decide)),
   (disassembleAddr_port_field stubPkSet samplePK "12abc" samplePK
      (by decide) (by decide) rfl (by decide)).2 (by decide) (by decide)⟩

/-- C5, on the second field `"65535"`, the largest port, and its successor. -/
theorem disassembleAddr_decimal_port_witness :
    (decimalValue "65535".data ≤ 65535 →
      disassembleAddr stubPkSet (samplePK ++ ":" ++ "65535") =
        .ok (samplePK, decimalValue "65535".data)) ∧
    (65535 < decimalValue "65535".data →
      ∃ e, disassembleAddr stubPkSet (samplePK ++ ":" ++ "65535") = .error (.portFormat e)) :=
  disassembleAddr_decimal_port stubPkSet samplePK "65535" samplePK
    (by decide) rfl (by decide) (by decide)

/-- C6, on a sample key. -/
theorem disassembleAddr_sentinel_witness :
    disassembleAddr stubPkSet (samplePK ++ ":" ++ "~") = .ok (samplePK, 0) :=
  disassembleAddr_sentinel stubPkSet samplePK samplePK (by decide) rfl

/-- C7, on a sample key and the port 49152. -/
theorem disassembleAddr_round_trip_witness :
    disassembleAddr stubPkSet (assembleAddr id samplePK 49152) = .ok (samplePK, 49152) ∧
    (disassembleAddr stubPkSet (assembleAddr id samplePK 49152)).map
        (fun r => assembleAddr id r.1 r.2) = .ok (assembleAddr id samplePK 49152) :=
  disassembleAddr_round_trip stubPkSet id samplePK 49152 (by decide) (by decide) rfl

section
variable {PK SK Ctx D S E C L : Type}

/-- C8: `makeConn` succeeds exactly when `disassembleAddr` succeeds on the
local and on the remote address of the raw connection; the `Conn` it returns
wraps the raw connection, carries the two parsed keys and ports and the given
network type; and when it fails it returns the error of `disassembleAddr` as
it is, the one of the local address when that address fails. -/
theorem makeConn_spec (x : Ext PK Ctx D S E C L) (conn : C) (t : String) :
    ((∃ c, makeConn x conn t = .ok c) ↔
      ((∃ l, disassembleAddr x.pkSet (x.connLocalAddr conn) = .ok l) ∧
       (∃ r, disassembleAddr x.pkSet (x.connRemoteAddr conn) = .ok r))) ∧
    (∀ c, makeConn x conn t = .ok c →
      disassembleAddr x.pkSet (x.connLocalAddr conn) = .ok (c.LocalPK, c.LocalPort) ∧
      disassembleAddr x.pkSet (x.connRemoteAddr conn) = .ok (c.RemotePK, c.RemotePort) ∧
      c.Network = t ∧ c.netConn = conn) ∧
    (∀ e, disassembleAddr x.pkSet (x.connLocalAddr conn) = .error e →
      makeConn x conn t = .error e) ∧
    (∀ l e, disassembleAddr x.pkSet (x.connLocalAddr conn) = .ok l →
      disassembleAddr x.pkSet (x.connRemoteAddr conn) = .error e →
      makeConn x conn t = .error e) := by
  unfold makeConn
  rcases hl : disassembleAddr x.pkSet (x.connLocalAddr conn) with el | ⟨lPK, lPort⟩
  · simp
  · rcases hr : disassembleAddr x.pkSet (x.connRemoteAddr conn) with er | ⟨rPK, rPort⟩
    · simp
    · simp only [Except.ok.injEq, exists_eq', and_self, true_and, reduceCtorEq, false_implies,
        implies_true, and_true]
      intro c hc
      subst hc
      simp [Conn.LocalPK, Conn.LocalPort, Conn.RemotePK, Conn.RemotePort, Conn.Network]

/-- C9, as the code has it: when the backend hands back a raw connection and
`makeConn` fails on it, `Network.Dial` and `Listener.AcceptConn` return the
error of `makeConn` and no `Conn`, and leave the backend in the state in which
its `Dial` or `Accept` left it: nothing is done to the raw connection. -/
theorem Dial_AcceptConn_parse_failure (x : Ext PK Ctx D S E C L) (n : Network PK SK D S)
    (ctx : Ctx) (pk : PK) (port : Nat) (conn : C) (e : Error E) :
    (∀ d1, x.dmsgDial n.dmsgC ctx pk port = (d1, .ok conn) →
      makeConn x conn x.DmsgType = .error e →
      Network.Dial x n ctx x.DmsgType pk port = ({ n with dmsgC := d1 }, .error e)) ∧
    (∀ s1, x.STcpType ≠ x.DmsgType → x.stcpDial n.stcpC ctx pk port = (s1, .ok conn) →
      makeConn x conn x.STcpType = .error e →
      Network.Dial x n ctx x.STcpType pk port = ({ n with stcpC := s1 }, .error e)) ∧
    (∀ (W : Type) (accept : L → W → W × Except E C) (l : Listener PK L) (w w1 : W),
      accept l.netListener w = (w1, .ok conn) →
      makeConn x conn l.network = .error e →
      l.AcceptConn x accept w = (w1, .error e)) := by
  refine ⟨?_, ?_, ?_⟩
  · intro d1 hd hm
    simp [Network.Dial, hd, hm]
  · intro s1 hne hs hm
    simp [Network.Dial, hne, hs, hm]
  · intro W accept l w w1 ha hm
    simp [Listener.AcceptConn, ha, hm]

/-- C10: with an empty `STCPLocalAddr`, `Network.Init` returns no error and
leaves the direct client as it was, so its `Serve` has not been applied; the
only change is the start of the mesh client's serve loop when that client is
present. This holds whichever of the two clients are `nil`. -/
theorem Init_empty_STCPLocalAddr (x : Ext PK Ctx D S E C L) (n : Network PK SK D S)
    (ctx : Ctx) (h : n.conf.STCPLocalAddr = "") :
    Network.Init x n ctx = ({ n with dmsgC := n.dmsgC.map x.dmsgServe }, none) := by
  obtain ⟨conf, dmsgC, stcpC⟩ := n
  simp only at h
  cases dmsgC <;> cases stcpC <;> simp [Network.Init, h]

end

/-- C9 as stated fails: the stub mesh client hands back a raw connection
whose remote address has no port field; `Network.Dial` returns the codec's
error, and the client still counts one open connection, where it counted none
before the call and would count none had the connection been closed. The same
happens in `Listener.AcceptConn`. -/
theorem Dial_leaves_raw_conn_open_counterexample :
    StubClient.dial (stubNetwork "" badConn).dmsgC () samplePK2 45 =
      (some { stubClient badConn with calls := ["Dial"], openConns := 1 }, .ok badConn) ∧
    makeConn stubExt badConn "dmsg" = .error (.invalidAddr samplePK2) ∧
    (Network.Dial stubExt (stubNetwork "" badConn) () "dmsg" samplePK2 45).2 =
      .error (.invalidAddr samplePK2) ∧
    (stubNetwork "" badConn).dmsgC.map StubClient.openConns = some 0 ∧
    (Network.Dial stubExt (stubNetwork "" badConn) () "dmsg" samplePK2 45).1.dmsgC.map
      StubClient.openConns = some 1 ∧
    (Network.Dial stubExt (stubNetwork "" badConn) () "dmsg" samplePK2 45).1.dmsgC.map
      (fun c => c.closeConn.openConns) = some 0 ∧
    (Listener.AcceptConn stubExt StubClient.accept
        { netListener := { addr := samplePK ++ ":45" }, lPK := samplePK, lPort := 45,
          network := "dmsg" }
        (stubClient badConn)).2 = .error (.invalidAddr samplePK2) ∧
    (Listener.AcceptConn stubExt StubClient.accept
        { netListener := { addr := samplePK ++ ":45" }, lPK := samplePK, lPort := 45,
          network := "dmsg" }
        (stubClient badConn)).1.openConns = 1 :=
  ⟨rfl, rfl, rfl, rfl, rfl, rfl, rfl, rfl⟩

/-- C9, on the stub mesh client that hands back a raw connection whose remote
address has no port field. -/
theorem Dial_AcceptConn_parse_failure_witness :
    Network.Dial stubExt (stubNetwork "" badConn) () "dmsg" samplePK2 45 =
      ({ stubNetwork "" badConn with
          dmsgC := some { stubClient badConn with calls := ["Dial"], openConns := 1 } },
        .error (.invalidAddr samplePK2)) :=
  (Dial_AcceptConn_parse_failure stubExt (stubNetwork "" badConn) () samplePK2 45 badConn
    (.invalidAddr samplePK2)).1 _ rfl rfl

/-- C8, on two stub raw connections: one with two well-formed addresses,
and one whose remote address has no port field. -/
theorem makeConn_spec_witness :
    (disassembleAddr stubPkSet goodConn.localAddr = .ok (samplePK, 49152) ∧
     disassembleAddr stubPkSet goodConn.remoteAddr = .ok (samplePK2, 45) ∧
     (∃ c, makeConn stubExt goodConn "stcp" = .ok c)) ∧
    makeConn stubExt badConn "stcp" = .error (.invalidAddr samplePK2) :=
  ⟨⟨rfl, rfl, (makeConn_spec stubExt goodConn "stcp").1.2 ⟨⟨_, rfl⟩, ⟨_, rfl⟩⟩⟩,
    (makeConn_spec stubExt badConn "stcp").2.2.2 _ _ rfl rfl⟩

/-- C10, on two stub clients: the direct client has recorded no call. -/
theorem Init_empty_STCPLocalAddr_witness :
    Network.Init stubExt (stubNetwork "" goodConn) () =
      ({ stubNetwork "" goodConn with
          dmsgC := (stubNetwork "" goodConn).dmsgC.map stubExt.dmsgServe }, none) :=
  Init_empty_STCPLocalAddr stubExt (stubNetwork "" goodConn) () rfl

end Snet

/-! ## The updater of the proxy-discovery entry: the properties -/

namespace Appdisc

theorem Start_of_started (u : proxyUpdater) (h : u.cancel ≠ none) :
    u.Start = .returned u := by
  simp [proxyUpdater.Start, h]

theorem Stop_of_stopped (loopReturns : Nat → Bool) (u : proxyUpdater) (h : u.cancel = none) :
    u.Stop loopReturns = .returned u := by
  simp [proxyUpdater.Stop, h]

theorem Start_of_stopped (u : proxyUpdater) (h : u.cancel = none ∧ u.loops = [] ∧ u.wg = some 0) :
    u.Start = .returned { cancel := some u.contexts, wg := some 1, loops := [u.contexts],
                          contexts := u.contexts + 1 } := by
  simp [proxyUpdater.Start, h.1, h.2.1, h.2.2]

theorem Start_settled (u : proxyUpdater) (h : Settled u) :
    ∃ v, u.Start = .returned v ∧ Settled v ∧ v.cancel ≠ none := by
  rcases h with h | ⟨c, hc, hl, hw, hlt⟩
  · exact ⟨_, Start_of_stopped u h, Or.inr ⟨u.contexts, rfl, rfl, rfl, by simp⟩, by simp⟩
  · have hne : u.cancel ≠ none := by simp [hc]
    exact ⟨u, Start_of_started u hne, Or.inr ⟨c, hc, hl, hw, hlt⟩, hne⟩

/-- `Stop` on a settled state: it returns in the stopped state, with no loop
left, when nothing is started or the loop returns on cancel; it waits for
ever when the loop does not return. -/
theorem Stop_settled (loopReturns : Nat → Bool) (u : proxyUpdater) (h : Settled u) :
    (u.Stop loopReturns =
        .returned { cancel := none, wg := some 0, loops := [], contexts := u.contexts } ∧
      ∀ c, u.cancel = some c → loopReturns c = true) ∨
    (u.Stop loopReturns = .blocked ∧ ∃ c, u.cancel = some c ∧ loopReturns c = false) := by
  rcases h with ⟨hc, hl, hw⟩ | ⟨c, hc, hl, hw, _⟩
  · left
    refine ⟨?_, by simp [hc]⟩
    rw [Stop_of_stopped loopReturns u hc]
    obtain ⟨cancel, wg, loops, contexts⟩ := u
    simp only at hc hl hw
    simp [hc, hl, hw]
  · by_cases hr : loopReturns c = true
    · left
      refine ⟨by simp [proxyUpdater.Stop, hc, hl, hw, hr], ?_⟩
      intro d hd
      rw [hc] at hd
      simp only [Option.some.injEq] at hd
      rw [← hd]; exact hr
    · right
      have hf : loopReturns c = false := by simpa using hr
      exact ⟨by simp [proxyUpdater.Stop, hc, hl, hw, hf], c, hc, hf⟩

theorem call_settled (loopReturns : Nat → Bool) (c : Call) (u : proxyUpdater) (h : Settled u) :
    (∃ v, call loopReturns c u = .returned v ∧ Settled v ∧ (v.cancel ≠ none ↔ c = .Start)) ∨
    (call loopReturns c u = .blocked ∧ ∃ k, loopReturns k = false) := by
  cases c with
  | Start =>
    obtain ⟨v, hv, hs, hc⟩ := Start_settled u h
    exact Or.inl ⟨v, hv, hs, by simp [hc]⟩
  | Stop =>
    rcases Stop_settled loopReturns u h with ⟨hst, _⟩ | ⟨hb, k, _, hk⟩
    · exact Or.inl ⟨_, hst, Or.inl ⟨rfl, rfl, rfl⟩, by simp⟩
    · exact Or.inr ⟨hb, k, hk⟩

/-- From a settled state a sequence of calls either returns, in a settled
state in which a cancel function is kept exactly when the last call is a
`Start` (or when there is no call and one was kept at the start), or waits
for ever in a `Stop` on a loop that does not return. It never panics. -/
theorem run_settled (loopReturns : Nat → Bool) (calls : List Call) (u : proxyUpdater)
    (h : Settled u) :
    (∃ v, run loopReturns calls u = .returned v ∧ Settled v ∧
      (v.cancel ≠ none ↔
        (calls.getLast? = some .Start ∨ (calls = [] ∧ u.cancel ≠ none)))) ∨
    (run loopReturns calls u = .blocked ∧ ∃ k, loopReturns k = false) := by
  induction calls generalizing u with
  | nil => exact Or.inl ⟨u, rfl, h, by simp⟩
  | cons c cs ih =>
    rcases call_settled loopReturns c u h with ⟨u1, h1, hs, hc⟩ | ⟨hb, hk⟩
    · rcases ih u1 hs with ⟨v, hv, hsv, hiff⟩ | ⟨hb, hk⟩
      · refine Or.inl ⟨v, by simpa [run, h1] using hv, hsv, ?_⟩
        rw [hiff]
        cases cs with
        | nil => simp [hc]
        | cons d ds => simp [List.getLast?_cons_cons]
      · exact Or.inr ⟨by simpa [run, h1] using hb, hk⟩
    · exact Or.inr ⟨by simp [run, hb], hk⟩

/-- C12, as the code has it: take an updater whose wait group is allocated,
with no cancel function, no loop and the counter at zero, and any sequence of
`Start` and `Stop` calls. If the calls return, then in the state `u` after
them at most one update loop runs; the cancel function is non-nil exactly
when the loop of its context runs, which is exactly when the last call was a
`Start`; `Start` on a started updater and `Stop` on a stopped one change
nothing; `Stop` on a started updater waits for ever when the loop does not
return on cancel, and returns when it does; and once `Stop` has returned no
loop is left, and the `Start` after it starts exactly one loop, on a context
that no earlier loop had. No call panics. All calls return when every update
loop returns once its context is cancelled. -/
theorem Start_Stop_sequences (loopReturns : Nat → Bool) (u0 : proxyUpdater)
    (h0 : u0.cancel = none ∧ u0.loops = [] ∧ u0.wg = some 0) (calls : List Call) :
    (∀ u, run loopReturns calls u0 = .returned u →
      u.loops.length ≤ 1 ∧
      (∀ c, u.cancel = some c ↔ u.loops = [c]) ∧
      (u.cancel ≠ none ↔ calls.getLast? = some .Start) ∧
      (u.cancel ≠ none → u.Start = .returned u) ∧
      (u.cancel = none → u.Stop loopReturns = .returned u) ∧
      (∀ c, u.cancel = some c → loopReturns c = false → u.Stop loopReturns = .blocked) ∧
      (∀ c, u.cancel = some c → loopReturns c = true → ∃ v, u.Stop loopReturns = .returned v) ∧
      (∀ v, u.Stop loopReturns = .returned v →
        v.cancel = none ∧ v.loops = [] ∧ u.contexts ∉ u.loops ∧
        v.Start = .returned { cancel := some u.contexts, wg := some 1,
                              loops := [u.contexts], contexts := u.contexts + 1 })) ∧
    (∀ u, run loopReturns calls u0 ≠ .panicked u) ∧
    ((∀ c, loopReturns c = true) → ∃ u, run loopReturns calls u0 = .returned u) := by
  have hrun := run_settled loopReturns calls u0 (Or.inl h0)
  refine ⟨?_, ?_, ?_⟩
  · intro u hu
    rcases hrun with ⟨v, hv, hs, hiff⟩ | ⟨hb, _⟩
    · rw [hv] at hu
      simp only [Outcome.returned.injEq] at hu
      subst hu
      have hstop := Stop_settled loopReturns v hs
      refine ⟨?_, ?_, ?_, Start_of_started v, Stop_of_stopped loopReturns v, ?_, ?_, ?_⟩
      · rcases hs with ⟨_, hl, _⟩ | ⟨c, _, hl, _, _⟩ <;> simp [hl]
      · intro c
        rcases hs with ⟨hc, hl, _⟩ | ⟨d, hc, hl, _, _⟩ <;> simp [hc, hl]
      · rw [hiff]
        simp [h0.1]
      · intro c hc hf
        rcases hstop with ⟨_, hall⟩ | ⟨hb, _⟩
        · rw [hall c hc] at hf
          exact absurd hf (by simp)
        · exact hb
      · intro c hc ht
        rcases hstop with ⟨hst, _⟩ | ⟨_, d, hd, hf⟩
        · exact ⟨_, hst⟩
        · rw [hc] at hd
          simp only [Option.some.injEq] at hd
          rw [hd, hf] at ht
          exact absurd ht (by simp)
      · intro w hw
        rcases hstop with ⟨hst, _⟩ | ⟨hb, _⟩
        · rw [hst] at hw
          simp only [Outcome.returned.injEq] at hw
          subst hw
          refine ⟨rfl, rfl, ?_, Start_of_stopped _ ⟨rfl, rfl, rfl⟩⟩
          rcases hs with ⟨_, hl, _⟩ | ⟨c, _, hl, _, hlt⟩
          · simp [hl]
          · simp only [hl, List.mem_singleton]
            omega
        · rw [hb] at hw
          exact absurd hw (by simp)
    · rw [hb] at hu
      exact absurd hu (by simp)
  · intro u hu
    rcases hrun with ⟨v, hv, _, _⟩ | ⟨hb, _⟩
    · rw [hv] at hu
      exact absurd hu (by simp)
    · rw [hb] at hu
      exact absurd hu (by simp)
  · intro hret
    rcases hrun with ⟨v, hv, _, _⟩ | ⟨_, k, hk⟩
    · exact ⟨v, hv⟩
    · rw [hret k] at hk
      exact absurd hk (by simp)

/-- C12 as stated fails on the zero value of the struct, which has no cancel
function: its wait group is `nil`, so `Start` panics at `wg.Add(1)` after it
has stored the cancel function, and no loop is started. This is also what
`Stop` followed by `Start` does there, and the `Stop` after it panics at
`wg.Wait`. -/
theorem Start_nil_wait_group_counterexample :
    zeroUpdater.cancel = none ∧
    zeroUpdater.Start =
      .panicked { cancel := some 0, wg := none, loops := [], contexts := 1 } ∧
    run (fun _ => true) [.Stop, .Start] zeroUpdater =
      .panicked { cancel := some 0, wg := none, loops := [], contexts := 1 } ∧
    proxyUpdater.Stop (fun _ => true)
        { cancel := some 0, wg := none, loops := [], contexts := 1 } =
      .panicked { cancel := none, wg := none, loops := [], contexts := 1 } := by
  decide

/-- C12, on the calls `Start, Start, Stop, Stop, Start` on a new updater with
a loop that returns once its context is cancelled. -/
theorem Start_Stop_sequences_witness :
    (∀ u, run (fun _ => true) [.Start, .Start, .Stop, .Stop, .Start] newUpdater = .returned u →
      u.loops.length ≤ 1 ∧
      (∀ c, u.cancel = some c ↔ u.loops = [c]) ∧
      (u.cancel ≠ none ↔ [Call.Start, Call.Start, Call.Stop, Call.Stop, Call.Start].getLast? = some .Start) ∧
      (u.cancel ≠ none → u.Start = .returned u) ∧
      (u.cancel = none → u.Stop (fun _ => true) = .returned u) ∧
      (∀ c, u.cancel = some c → (fun _ : Nat => true) c = false → u.Stop (fun _ => true) = .blocked) ∧
      (∀ c, u.cancel = some c → (fun _ : Nat => true) c = true → ∃ v, u.Stop (fun _ => true) = .returned v) ∧
      (∀ v, u.Stop (fun _ => true) = .returned v →
        v.cancel = none ∧ v.loops = [] ∧ u.contexts ∉ u.loops ∧
        v.Start = .returned { cancel := some u.contexts, wg := some 1,
                              loops := [u.contexts], contexts := u.contexts + 1 })) ∧
    (∀ u, run (fun _ => true) [.Start, .Start, .Stop, .Stop, .Start] newUpdater ≠ .panicked u) ∧
    ((∀ c, (fun _ : Nat => true) c = true) → ∃ u, run (fun _ => true) [.Start, .Start, .Stop, .Stop, .Start] newUpdater = .returned u) :=
  Start_Stop_sequences (fun _ => true) newUpdater ⟨rfl, rfl, rfl⟩
    [.Start, .Start, .Stop, .Stop, .Start]

end Appdisc

/-! ## The network facade: errors of the backends -/

namespace Snet

section
variable {PK SK Ctx D S E C L : Type}

/-- C11: when the `Dial` (or `Listen`) of the backend of the given network
type fails with the error `e`, `Network.Dial` (or `Network.Listen`) returns
the error `e` as it is and no connection (or listener); the client of that
backend is in the state in which its method left it, and the client of the
other backend is as it was before the call. -/
theorem Dial_Listen_backend_error (x : Ext PK Ctx D S E C L) (n : Network PK SK D S)
    (ctx : Ctx) (pk : PK) (port : Nat) (e : E) :
    (∀ d1, x.dmsgDial n.dmsgC ctx pk port = (d1, .error e) →
      Network.Dial x n ctx x.DmsgType pk port =
        ({ conf := n.conf, dmsgC := d1, stcpC := n.stcpC }, .error (.external e))) ∧
    (∀ s1, x.STcpType ≠ x.DmsgType → x.stcpDial n.stcpC ctx pk port = (s1, .error e) →
      Network.Dial x n ctx x.STcpType pk port =
        ({ conf := n.conf, dmsgC := n.dmsgC, stcpC := s1 }, .error (.external e))) ∧
    (∀ d1, x.dmsgListen n.dmsgC port = (d1, .error e) →
      Network.Listen x n x.DmsgType port =
        ({ conf := n.conf, dmsgC := d1, stcpC := n.stcpC }, .error (.external e))) ∧
    (∀ s1, x.STcpType ≠ x.DmsgType → x.stcpListen n.stcpC port = (s1, .error e) →
      Network.Listen x n x.STcpType port =
        ({ conf := n.conf, dmsgC := n.dmsgC, stcpC := s1 }, .error (.external e))) := by
  refine ⟨?_, ?_, ?_, ?_⟩
  · intro d1 hd
    simp [Network.Dial, hd]
  · intro s1 hne hs
    simp [Network.Dial, hne, hs]
  · intro d1 hd
    simp [Network.Listen, hd]
  · intro s1 hne hs
    simp [Network.Listen, hne, hs]

end

/-- C11, on two stub clients of which the direct one refuses to dial: the
error comes back as it is, the direct client has recorded one `Dial`, and the
mesh client has recorded nothing. -/
theorem Dial_Listen_backend_error_witness :
    Network.Dial stubExt
        { conf := stubConfig "", dmsgC := some (stubClient goodConn),
          stcpC := some { stubClient goodConn with dialErr := some "refused" } }
        () "stcp" samplePK2 45 =
      ({ conf := stubConfig "", dmsgC := some (stubClient goodConn),
         stcpC := some { stubClient goodConn with
                          dialErr := some "refused", calls := ["Dial"] } },
        .error (.external "refused")) :=
  (Dial_Listen_backend_error stubExt _ () samplePK2 45 "refused").2.1 _ (by decide) rfl

end Snet
